import Mathlib

/-!
Verification of the `poly_image<downsample>` local polynomial feature extractor of
dlib (`dlib/image_keypoint/poly_image_abstract.h`).  The repository ships only the
abstract interface header, so the operational behaviour (design-matrix
construction, least-squares fit, sliding-window extraction, coordinate maps,
serialization) is modelled from the specification and the contracts documented in
that header.  Machine arithmetic on pixel intensities and coefficients is modelled
by exact rationals.
-/

open Matrix

namespace DlibPoly

/-- A 2-D integer point (`x` = column, `y` = row), as dlib's `point`. -/
structure Pt where
  x : ℤ
  y : ℤ

/-- A rectangle given by its left/top/right/bottom bounds, as dlib's `rectangle`. -/
structure Rect where
  left : ℤ
  top : ℤ
  right : ℤ
  bottom : ℤ

/-- Top-left corner of a rectangle, as dlib's `rectangle::tl_corner()`. -/
def tl_corner (rc : Rect) : Pt := ⟨rc.left, rc.top⟩

/-- Bottom-right corner of a rectangle, as dlib's `rectangle::br_corner()`. -/
def br_corner (rc : Rect) : Pt := ⟨rc.right, rc.bottom⟩

/-- The rectangle spanned by two corner points, as dlib's `rectangle(p, q)`. -/
def rectangle (p q : Pt) : Rect := ⟨p.x, p.y, q.x, q.y⟩

/-- An input image: a `rows × cols` grid of pixel intensities (exact rationals model
the pixel values fed to the `double` polynomial fit). -/
structure Image where
  rows : ℕ
  cols : ℕ
  pixel : ℕ → ℕ → ℚ

/-- The image of the given dimensions whose every pixel has intensity `c`. -/
def constImg (rows cols : ℕ) (c : ℚ) : Image := ⟨rows, cols, fun _ _ => c⟩

/-- Modelled from the spec (the sliding-window implementation `poly_image.h` is not
under `src/`; only the abstract header is): the 2-D monomial exponent pairs
`(px, py)` of total degree at most `order`, enumerated by increasing total degree
with a fixed tie-break.  The first enumerated term is the constant `(0, 0)`. -/
def monomials (order : ℕ) : List (ℕ × ℕ) :=
  (List.range (order + 1)).flatMap fun d => (List.range (d + 1)).map fun i => (d - i, i)

/-- Number of monomial terms of the fitted polynomial, the constant term included. -/
def termCount (order : ℕ) : ℕ := (monomials order).length

/-- The border margin `(window_size - 1) / 2` of the sliding window. -/
def margin (w : ℕ) : ℕ := (w - 1) / 2

/-- Modelled from the spec: the integer design matrix.  Row `k` enumerates the
window pixels in row-major order (`k = i * w + j`), column `t` the monomials; the
entry is `x ^ px * y ^ py` at the window offsets `x = j - margin`, `y = i - margin`
centred on the window middle. -/
def designMatrixZ (order w : ℕ) : Matrix (Fin (w * w)) (Fin (termCount order)) ℤ :=
  fun k t =>
    (((k.val % w : ℕ) : ℤ) - (margin w : ℤ)) ^ ((monomials order).get ⟨t.val, t.isLt⟩).1 *
    (((k.val / w : ℕ) : ℤ) - (margin w : ℤ)) ^ ((monomials order).get ⟨t.val, t.isLt⟩).2

/-- The design matrix over the rationals (its entries are integers). -/
def designMatrix (order w : ℕ) : Matrix (Fin (w * w)) (Fin (termCount order)) ℚ :=
  (designMatrixZ order w).map fun z => (z : ℚ)

/-- The integer Gram matrix `Bᵀ * B` of the design matrix. -/
def gramZ (order w : ℕ) : Matrix (Fin (termCount order)) (Fin (termCount order)) ℤ :=
  (designMatrixZ order w)ᵀ * designMatrixZ order w

/-- The Gram matrix `Bᵀ * B` of the design matrix over the rationals. -/
def gram (order w : ℕ) : Matrix (Fin (termCount order)) (Fin (termCount order)) ℚ :=
  (designMatrix order w)ᵀ * designMatrix order w

/-- Modelled from the spec: the least-squares fit operator, the pseudo-inverse
`(BᵀB)⁻¹ * Bᵀ` of the design matrix, with the Gram inverse realised computably by
the adjugate formula (for a singular Gram matrix this yields the zero operator,
the defensive `SingularFit` guard of the spec). -/
def fitOperator (order w : ℕ) : Matrix (Fin (termCount order)) (Fin (w * w)) ℚ :=
  ((gram order w).det⁻¹ • (gram order w).adjugate) * (designMatrix order w)ᵀ

/-- Modelled from the spec: the window intensities at feature location
`(fr, fc)`, gathered in row-major order; the window's top-left image pixel is
`(fr * ds, fc * ds)` and its centre `(fr * ds + margin, fc * ds + margin)`. -/
def windowVec (w ds : ℕ) (img : Image) (fr fc : ℕ) : Fin (w * w) → ℚ :=
  fun k => img.pixel (fr * ds + k.val / w) (fc * ds + k.val % w)

/-- The fitted polynomial coefficients at a feature location: the fit operator
applied to the window intensities. -/
def coeffsAt (order w ds : ℕ) (img : Image) (fr fc : ℕ) : Fin (termCount order) → ℚ :=
  fitOperator order w *ᵥ windowVec w ds img fr fc

/-- Modelled from the spec: the stored descriptor at a feature location — the
non-constant coefficients, each divided by the constant coefficient, in the fixed
term order. -/
def descriptorAt (order w ds : ℕ) (img : Image) (fr fc : ℕ) : List ℚ :=
  (List.range (termCount order - 1)).map fun i =>
    if h : i + 1 < termCount order then
      coeffsAt order w ds img fr fc ⟨i + 1, h⟩ /
        coeffsAt order w ds img fr fc ⟨0, Nat.lt_of_le_of_lt (Nat.zero_le _) h⟩
    else 0

/-- Modelled from the spec: the number of feature-grid rows produced for an image
with `rows` pixel rows, `max 0 (⌊(rows - w) / ds⌋ + 1)` expressed over ℕ; columns
are analogous. -/
def gridRows (w ds rows : ℕ) : ℕ :=
  if rows < w then 0 else (rows - w) / ds + 1

/-- A concrete integer right inverse of the Gram matrix for order 2 and window 3:
`gramZ 2 3 * gramNZ = 5184 • 1` (checked below), so `(1 / 5184) • gramNZ` inverts
the rational Gram matrix. -/
def gramNZ : Matrix (Fin (termCount 2)) (Fin (termCount 2)) ℤ :=
  !![2880, 0, 0, -1728, 0, -1728;
     0, 864, 0, 0, 0, 0;
     0, 0, 864, 0, 0, 0;
     -1728, 0, 0, 2592, 0, 0;
     0, 0, 0, 0, 1296, 0;
     -1728, 0, 0, 0, 0, 2592]

/-- The state of a `poly_image<downsample>` instance: the configuration
(`order`, `window_size`) plus the load-populated feature grid (`fnr × fnc`
descriptors `des`).  The design matrix and fit operator are pure functions of the
configuration and are not stored. -/
structure PolyImage where
  order : ℕ
  window_size : ℕ
  fnr : ℕ
  fnc : ℕ
  des : ℕ → ℕ → List ℚ

/-- `get_order()`. -/
def get_order (s : PolyImage) : ℕ := s.order

/-- `get_window_size()`. -/
def get_window_size (s : PolyImage) : ℕ := s.window_size

/-- `nr()`: number of rows of the feature grid. -/
def nr (s : PolyImage) : ℕ := s.fnr

/-- `nc()`: number of columns of the feature grid. -/
def nc (s : PolyImage) : ℕ := s.fnc

/-- `size()`, documented to return `nr() * nc()`. -/
def size (s : PolyImage) : ℕ := s.fnr * s.fnc

/-- Modelled from the spec: `get_num_dimensions()` — the number of coefficients of
an order-`order` polynomial in two variables except the constant term, stored in
closed form `(order + 1) * (order + 2) / 2 - 1`. -/
def get_num_dimensions (s : PolyImage) : ℕ :=
  (s.order + 1) * (s.order + 2) / 2 - 1

/-- The never-loaded instance with the given configuration: empty feature grid. -/
def freshConfigured (o w : ℕ) : PolyImage := ⟨o, w, 0, 0, fun _ _ => []⟩

/-- The initial value: `get_order() == 3`, `get_window_size() == 13`, `size() == 0`. -/
def init : PolyImage := freshConfigured 3 13

/-- Modelled from the spec: `load(img)` replaces the feature grid wholesale with the
grid extracted from `img` under the current configuration; `ds` is the `downsample`
template parameter. -/
def load (ds : ℕ) (s : PolyImage) (img : Image) : PolyImage :=
  { s with
    fnr := gridRows s.window_size ds img.rows
    fnc := gridRows s.window_size ds img.cols
    des := fun r c => descriptorAt s.order s.window_size ds img r c }

/-- Modelled from the spec: `unload()` clears only the state populated by `load`. -/
def unload (s : PolyImage) : PolyImage :=
  { s with fnr := 0, fnc := 0, des := fun _ _ => [] }

/-- Modelled from the spec: `clear()` resets the object to its initial value. -/
def clear (_ : PolyImage) : PolyImage := init

/-- Modelled from the spec: `copy_configuration(item)` copies all state of `item`
except the state populated by `load` (the feature grid of the destination is left
alone; both the design matrix and the fit operator are derived from the copied
configuration). -/
def copy_configuration (dest src : PolyImage) : PolyImage :=
  { dest with order := src.order, window_size := src.window_size }

/-- The configuration constraints of `setup`: `1 <= order <= 6`,
`window_size >= 3` and odd. -/
def validConfig (o w : ℕ) : Prop :=
  1 ≤ o ∧ o ≤ 6 ∧ 3 ≤ w ∧ w % 2 = 1

instance (o w : ℕ) : Decidable (validConfig o w) :=
  inferInstanceAs (Decidable (1 ≤ o ∧ o ≤ 6 ∧ 3 ≤ w ∧ w % 2 = 1))

/-- The error taxonomy of the spec relevant to configuration and serialization. -/
inductive PolyError where
  | invalidConfiguration
  | corruptData
deriving DecidableEq

/-- Modelled from the spec: `setup(order, window_size)` checks the configuration
constraints; on success the object holds the new configuration and any extracted
state is discarded, on failure the call fails with `InvalidConfiguration`. -/
def setup (_ : PolyImage) (o w : ℕ) : Except PolyError PolyImage :=
  if validConfig o w then Except.ok (freshConfigured o w)
  else Except.error PolyError.invalidConfiguration

/-- The state after a `setup` call: the new state on success, the prior state
when the call failed. -/
def setupState (s : PolyImage) (o w : ℕ) : PolyImage :=
  match setup s o w with
  | Except.ok t => t
  | Except.error _ => s

/-- Modelled from the spec: `serialize` persists only the configuration, `order`
then `window_size`. -/
def serialize (s : PolyImage) : List ℕ := [s.order, s.window_size]

/-- Modelled from the spec: `deserialize` reads `order` then `window_size`,
validates their ranges, and yields an instance with no extracted state; malformed
input fails with `CorruptData`. -/
def deserialize (bytes : List ℕ) : Except PolyError PolyImage :=
  match bytes with
  | [o, w] =>
      if validConfig o w then Except.ok (freshConfigured o w)
      else Except.error PolyError.corruptData
  | _ => Except.error PolyError.corruptData

/-- Modelled from the spec: `image_to_feat_space` on a point,
`((p - margin) / downsample)` componentwise with floor division. -/
def image_to_feat_space (ds : ℕ) (s : PolyImage) (p : Pt) : Pt :=
  ⟨(p.x - (margin s.window_size : ℤ)) / (ds : ℤ),
   (p.y - (margin s.window_size : ℤ)) / (ds : ℤ)⟩

/-- Modelled from the spec: `feat_to_image_space` on a point,
`p * downsample + margin` componentwise — the canonical centre image pixel. -/
def feat_to_image_space (ds : ℕ) (s : PolyImage) (p : Pt) : Pt :=
  ⟨p.x * (ds : ℤ) + (margin s.window_size : ℤ),
   p.y * (ds : ℤ) + (margin s.window_size : ℤ)⟩

/-- Modelled from the spec: the rectangle overload of `image_to_feat_space`,
written out boundwise. -/
def image_to_feat_space_rect (ds : ℕ) (s : PolyImage) (rc : Rect) : Rect :=
  ⟨(rc.left - (margin s.window_size : ℤ)) / (ds : ℤ),
   (rc.top - (margin s.window_size : ℤ)) / (ds : ℤ),
   (rc.right - (margin s.window_size : ℤ)) / (ds : ℤ),
   (rc.bottom - (margin s.window_size : ℤ)) / (ds : ℤ)⟩

/-- Modelled from the spec: the rectangle overload of `feat_to_image_space`,
written out boundwise. -/
def feat_to_image_space_rect (ds : ℕ) (s : PolyImage) (rc : Rect) : Rect :=
  ⟨rc.left * (ds : ℤ) + (margin s.window_size : ℤ),
   rc.top * (ds : ℤ) + (margin s.window_size : ℤ),
   rc.right * (ds : ℤ) + (margin s.window_size : ℤ),
   rc.bottom * (ds : ℤ) + (margin s.window_size : ℤ)⟩

/-- The feature-space/image-space round trip of a feature point. -/
def roundTrip (ds : ℕ) (s : PolyImage) (p : Pt) : Pt :=
  image_to_feat_space ds s (feat_to_image_space ds s p)

/-- The ℕ-valued grid dimension agrees with the spec's integer formula
`max 0 (⌊(rows - w) / ds⌋ + 1)`. -/
theorem gridRows_cast (w ds rows : ℕ) (hds : 1 ≤ ds) :
    (gridRows w ds rows : ℤ) = max 0 (((rows : ℤ) - (w : ℤ)) / (ds : ℤ) + 1) := by
  unfold gridRows
  split
  · rename_i h
    have h1 : ((rows : ℤ) - (w : ℤ)) < 0 := by
      have : (rows : ℤ) < (w : ℤ) := by exact_mod_cast h
      linarith
    have h2 : ((rows : ℤ) - (w : ℤ)) / (ds : ℤ) < 0 :=
      Int.ediv_neg' h1 (by exact_mod_cast hds)
    have h3 : ((rows : ℤ) - (w : ℤ)) / (ds : ℤ) + 1 ≤ 0 := by linarith
    rw [max_eq_left h3]
    simp
  · rename_i h
    have hw : w ≤ rows := Nat.le_of_not_lt h
    have hnn : (0 : ℤ) ≤ ((rows : ℤ) - (w : ℤ)) / (ds : ℤ) :=
      Int.ediv_nonneg (sub_nonneg.mpr (by exact_mod_cast hw)) (by positivity)
    rw [max_eq_right (by linarith)]
    push_cast [Int.ofNat_ediv, Nat.cast_sub hw]
    ring

/-- Claim C1: for every loaded image the feature grid dimensions satisfy
`nr = max 0 (⌊(rows - window_size) / downsample⌋ + 1)` (`nc` analogously) and
`size() = nr * nc`; in particular `window_size = 3`, `order = 1`, `downsample = 1`
on a 5×5 image yields `nr = nc = 3`. -/
theorem claim_C1 (ds : ℕ) (s : PolyImage) (img : Image) (hds : 1 ≤ ds) :
    ((nr (load ds s img) : ℤ) =
        max 0 (((img.rows : ℤ) - (get_window_size s : ℤ)) / (ds : ℤ) + 1)) ∧
    ((nc (load ds s img) : ℤ) =
        max 0 (((img.cols : ℤ) - (get_window_size s : ℤ)) / (ds : ℤ) + 1)) ∧
    size (load ds s img) = nr (load ds s img) * nc (load ds s img) ∧
    nr (load 1 (freshConfigured 1 3) (constImg 5 5 0)) = 3 ∧
    nc (load 1 (freshConfigured 1 3) (constImg 5 5 0)) = 3 :=
  ⟨gridRows_cast s.window_size ds img.rows hds,
   gridRows_cast s.window_size ds img.cols hds, rfl, rfl, rfl⟩

/-- Witness for claim C1 at `downsample = 1`, configuration `(order 1, window 3)`,
and a concrete 5×5 image. -/
theorem claim_C1_witness :
    1 ≤ 1 ∧
    (((nr (load 1 (freshConfigured 1 3) (constImg 5 5 0)) : ℤ) =
        max 0 ((((constImg 5 5 0).rows : ℤ) -
          (get_window_size (freshConfigured 1 3) : ℤ)) / ((1 : ℕ) : ℤ) + 1)) ∧
    ((nc (load 1 (freshConfigured 1 3) (constImg 5 5 0)) : ℤ) =
        max 0 ((((constImg 5 5 0).cols : ℤ) -
          (get_window_size (freshConfigured 1 3) : ℤ)) / ((1 : ℕ) : ℤ) + 1)) ∧
    size (load 1 (freshConfigured 1 3) (constImg 5 5 0)) =
      nr (load 1 (freshConfigured 1 3) (constImg 5 5 0)) *
        nc (load 1 (freshConfigured 1 3) (constImg 5 5 0)) ∧
    nr (load 1 (freshConfigured 1 3) (constImg 5 5 0)) = 3 ∧
    nc (load 1 (freshConfigured 1 3) (constImg 5 5 0)) = 3) :=
  ⟨le_refl 1, claim_C1 1 (freshConfigured 1 3) (constImg 5 5 0) (le_refl 1)⟩

/-- Claim C2: after `H2.copy_configuration(H1)`, loading the same image into both
instances leaves them in exactly the same state; in particular the two feature
grids are identical. -/
theorem claim_C2 (ds : ℕ) (H1 H2 : PolyImage) (img : Image) :
    load ds (copy_configuration H2 H1) img = load ds H1 img := rfl

/-- Claim C4: `load; unload; load` of the same image leaves the instance in exactly
the state of a single `load` on a never-loaded instance with the same
configuration; `unload` zeroes `nr`/`nc` and keeps the configuration intact. -/
theorem claim_C4 (ds : ℕ) (s : PolyImage) (img : Image) :
    load ds (unload (load ds s img)) img =
      load ds (freshConfigured (get_order s) (get_window_size s)) img ∧
    load ds (unload (load ds s img)) img = load ds s img ∧
    nr (unload s) = 0 ∧ nc (unload s) = 0 ∧
    get_order (unload s) = get_order s ∧
    get_window_size (unload s) = get_window_size s :=
  ⟨rfl, rfl, rfl, rfl, rfl, rfl⟩

/-- Claim C8: both rectangle overloads of the coordinate maps agree with the
rectangle built from the point-mapped top-left and bottom-right corners; no bound
is derived independently of the point mapping. -/
theorem claim_C8 (ds : ℕ) (s : PolyImage) (rc : Rect) :
    image_to_feat_space_rect ds s rc =
      rectangle (image_to_feat_space ds s (tl_corner rc))
        (image_to_feat_space ds s (br_corner rc)) ∧
    feat_to_image_space_rect ds s rc =
      rectangle (feat_to_image_space ds s (tl_corner rc))
        (feat_to_image_space ds s (br_corner rc)) :=
  ⟨rfl, rfl⟩

/-- Claim C3: `deserialize (serialize x)` succeeds for every instance with a valid
configuration (loaded or not), preserves `get_order` and `get_window_size`, and the
round-tripped instance has `size() == 0`. -/
theorem claim_C3 (s : PolyImage) (h : validConfig s.order s.window_size) :
    ∃ t, deserialize (serialize s) = Except.ok t ∧
      get_order t = get_order s ∧
      get_window_size t = get_window_size s ∧
      size t = 0 := by
  refine ⟨freshConfigured s.order s.window_size, ?_, rfl, rfl, rfl⟩
  simp only [serialize, deserialize, if_pos h]

/-- Witness for claim C3 at a loaded instance: the default configuration loaded
with a 20×20 image. -/
theorem claim_C3_witness :
    validConfig (load 1 init (constImg 20 20 1)).order
      (load 1 init (constImg 20 20 1)).window_size ∧
    (∃ t, deserialize (serialize (load 1 init (constImg 20 20 1))) = Except.ok t ∧
      get_order t = get_order (load 1 init (constImg 20 20 1)) ∧
      get_window_size t = get_window_size (load 1 init (constImg 20 20 1)) ∧
      size t = 0) :=
  ⟨by decide, claim_C3 (load 1 init (constImg 20 20 1)) (by decide)⟩

/-- Positivity of a feature-grid dimension is equivalent to the image reaching the
window size in that axis. -/
theorem gridRows_pos_iff (w ds rows : ℕ) : 0 < gridRows w ds rows ↔ w ≤ rows := by
  unfold gridRows
  split
  · rename_i h
    simp [Nat.lt_irrefl]
    omega
  · rename_i h
    simp [Nat.succ_pos]
    omega

/-- Claim C6: for every valid configuration `get_num_dimensions()` is strictly
positive, equals the number of polynomial terms minus the constant term, and is
unchanged by `load` and `unload`. -/
theorem claim_C6 (ds : ℕ) (s : PolyImage) (img : Image)
    (h : validConfig s.order s.window_size) :
    0 < get_num_dimensions s ∧
    get_num_dimensions s = termCount s.order - 1 ∧
    get_num_dimensions (load ds s img) = get_num_dimensions s ∧
    get_num_dimensions (unload s) = get_num_dimensions s := by
  obtain ⟨h1, h2, -, -⟩ := h
  refine ⟨?_, ?_, rfl, rfl⟩
  · show 0 < (s.order + 1) * (s.order + 2) / 2 - 1
    generalize s.order = o at h1 h2
    interval_cases o <;> decide
  · show (s.order + 1) * (s.order + 2) / 2 - 1 = termCount s.order - 1
    generalize s.order = o at h1 h2
    interval_cases o <;> decide

/-- Witness for claim C6 at the default configuration and a concrete image. -/
theorem claim_C6_witness :
    validConfig init.order init.window_size ∧
    (0 < get_num_dimensions init ∧
     get_num_dimensions init = termCount init.order - 1 ∧
     get_num_dimensions (load 1 init (constImg 5 5 0)) = get_num_dimensions init ∧
     get_num_dimensions (unload init) = get_num_dimensions init) :=
  ⟨by decide, claim_C6 1 init (constImg 5 5 0) (by decide)⟩

/-- The feature→image→feature round trip of a point is exact for every positive
downsampling stride. -/
theorem roundTrip_exact (ds : ℕ) (s : PolyImage) (p : Pt) (hds : 1 ≤ ds) :
    roundTrip ds s p = p := by
  have hne : ((ds : ℕ) : ℤ) ≠ 0 := by exact_mod_cast Nat.pos_iff_ne_zero.mp hds
  unfold roundTrip image_to_feat_space feat_to_image_space
  simp only [add_sub_cancel_right]
  cases p with
  | mk x y => simp [Int.mul_ediv_cancel _ hne]

/-- Claim C7: for every admissible feature location `(row, col)` the round trip
`image_to_feat_space (feat_to_image_space (point))` lies within distance
`downsample - 1` of the location in each axis, and is exact for `downsample = 1`. -/
theorem claim_C7 (ds : ℕ) (s : PolyImage) (img : Image) (r c : ℕ)
    (hds : 1 ≤ ds)
    (hr : r < nr (load ds s img)) (hc : c < nc (load ds s img)) :
    |(roundTrip ds s ⟨(c : ℤ), (r : ℤ)⟩).x - (c : ℤ)| ≤ (ds : ℤ) - 1 ∧
    |(roundTrip ds s ⟨(c : ℤ), (r : ℤ)⟩).y - (r : ℤ)| ≤ (ds : ℤ) - 1 ∧
    (ds = 1 → roundTrip ds s ⟨(c : ℤ), (r : ℤ)⟩ = ⟨(c : ℤ), (r : ℤ)⟩) := by
  have h := roundTrip_exact ds s ⟨(c : ℤ), (r : ℤ)⟩ hds
  rw [h]
  have hds' : (1 : ℤ) ≤ (ds : ℤ) := by exact_mod_cast hds
  refine ⟨?_, ?_, fun _ => rfl⟩ <;> simp <;> linarith

/-- Witness for claim C7 at `downsample = 1`, the default configuration, and a
13×13 image (one admissible feature location). -/
theorem claim_C7_witness :
    1 ≤ 1 ∧ 0 < nr (load 1 init (constImg 13 13 0)) ∧
    0 < nc (load 1 init (constImg 13 13 0)) ∧
    (|(roundTrip 1 init ⟨((0 : ℕ) : ℤ), ((0 : ℕ) : ℤ)⟩).x - ((0 : ℕ) : ℤ)| ≤
        ((1 : ℕ) : ℤ) - 1 ∧
     |(roundTrip 1 init ⟨((0 : ℕ) : ℤ), ((0 : ℕ) : ℤ)⟩).y - ((0 : ℕ) : ℤ)| ≤
        ((1 : ℕ) : ℤ) - 1 ∧
     ((1 : ℕ) = 1 → roundTrip 1 init ⟨((0 : ℕ) : ℤ), ((0 : ℕ) : ℤ)⟩ =
        ⟨((0 : ℕ) : ℤ), ((0 : ℕ) : ℤ)⟩)) :=
  ⟨le_refl 1, by decide, by decide,
   claim_C7 1 init (constImg 13 13 0) 0 0 (le_refl 1) (by decide) (by decide)⟩

/-- Claim C9: `setup` with an out-of-range order or an even or too-small window
fails with `InvalidConfiguration` and leaves the object in its prior state. -/
theorem claim_C9 (s : PolyImage) (o w : ℕ) (h : ¬ validConfig o w) :
    setup s o w = Except.error PolyError.invalidConfiguration ∧
    setupState s o w = s := by
  constructor
  · simp only [setup, if_neg h]
  · simp only [setupState, setup, if_neg h]

/-- Witness for claim C9: `setup(0, 4)` (order too small, window even) on the
default instance. -/
theorem claim_C9_witness :
    ¬ validConfig 0 4 ∧
    (setup init 0 4 = Except.error PolyError.invalidConfiguration ∧
     setupState init 0 4 = init) :=
  ⟨by decide, claim_C9 init 0 4 (by decide)⟩

/-- The Gram matrix of the order-2, window-3 design matrix times `gramNZ` is
`5184` times the identity (a concrete integer computation). -/
theorem gramZ_mul_NZ : gramZ 2 3 * gramNZ =
    (5184 : ℤ) • (1 : Matrix (Fin (termCount 2)) (Fin (termCount 2)) ℤ) := by decide

/-- Entrywise integer-to-rational casting commutes with matrix multiplication. -/
theorem map_ratCast_mul {l m n : Type*} [Fintype m] (A : Matrix l m ℤ) (B : Matrix m n ℤ) :
    (A * B).map (fun z => (z : ℚ)) =
      A.map (fun z => (z : ℚ)) * B.map (fun z => (z : ℚ)) := by
  ext i j
  simp only [Matrix.mul_apply, Matrix.map_apply]
  push_cast
  rfl

/-- The rational Gram matrix is the cast of the integer Gram matrix. -/
theorem gram_eq_cast (order w : ℕ) :
    gram order w = (gramZ order w).map (fun z => (z : ℚ)) := by
  unfold gram gramZ designMatrix
  rw [map_ratCast_mul, Matrix.transpose_map]

/-- Casting an integer multiple of the identity matrix to the rationals. -/
theorem smulOne_cast (n : ℕ) (z : ℤ) :
    (z • (1 : Matrix (Fin n) (Fin n) ℤ)).map (fun k => (k : ℚ)) =
      (z : ℚ) • (1 : Matrix (Fin n) (Fin n) ℚ) := by
  ext i j
  simp only [Matrix.map_apply, Matrix.smul_apply, Matrix.one_apply, smul_eq_mul]
  split <;> push_cast <;> ring

/-- `(1 / 5184) • gramNZ` is a rational right inverse of `gram 2 3`. -/
theorem gram_right_inverse :
    gram 2 3 * ((5184 : ℚ)⁻¹ • gramNZ.map (fun z => (z : ℚ))) = 1 := by
  rw [gram_eq_cast, Matrix.mul_smul, ← map_ratCast_mul, gramZ_mul_NZ, smulOne_cast,
    smul_smul]
  norm_num

/-- The order-2, window-3 Gram matrix has invertible determinant. -/
theorem isUnit_gram_det : IsUnit (gram 2 3).det :=
  Matrix.isUnit_det_of_right_inverse gram_right_inverse

/-- The fit operator is a left inverse of the design matrix for order 2,
window 3: fitting recovers exact polynomial coefficients. -/
theorem fitOperator_mul_design : fitOperator 2 3 * designMatrix 2 3 = 1 := by
  have hinv : (gram 2 3).det⁻¹ • (gram 2 3).adjugate = (gram 2 3)⁻¹ := by
    rw [Matrix.inv_def, Ring.inverse_eq_inv]
  show ((gram 2 3).det⁻¹ • (gram 2 3).adjugate) * (designMatrix 2 3)ᵀ *
      designMatrix 2 3 = 1
  rw [hinv, Matrix.mul_assoc]
  show (gram 2 3)⁻¹ * gram 2 3 = 1
  exact Matrix.nonsing_inv_mul _ isUnit_gram_det

/-- There is at least one monomial term (the constant) at order 2. -/
theorem termCount_two_pos : 0 < termCount 2 := by decide

/-- Column 0 of the order-2, window-3 integer design matrix is all ones (the
constant monomial). -/
theorem designZ_col_zero :
    (fun k => designMatrixZ 2 3 k ⟨0, termCount_two_pos⟩) = fun _ => (1 : ℤ) := by
  decide

/-- The design matrix maps the pure-constant coefficient vector to the all-ones
window vector. -/
theorem design_mulVec_single :
    designMatrix 2 3 *ᵥ Pi.single (⟨0, termCount_two_pos⟩ : Fin (termCount 2)) (1 : ℚ) =
      fun _ => 1 := by
  rw [Matrix.mulVec_single]
  funext k
  show (designMatrixZ 2 3 k ⟨0, termCount_two_pos⟩ : ℚ) * 1 = 1
  rw [congrFun designZ_col_zero k]
  norm_num

/-- On a constant-intensity image every fitted coefficient vector is the constant
`c` in the constant term and zero elsewhere. -/
theorem coeffs_const (c : ℚ) (fr fc : ℕ) :
    coeffsAt 2 3 2 (constImg 8 8 c) fr fc =
      c • (Pi.single (⟨0, termCount_two_pos⟩ : Fin (termCount 2)) (1 : ℚ) :
        Fin (termCount 2) → ℚ) := by
  unfold coeffsAt
  have hw : windowVec 3 2 (constImg 8 8 c) fr fc =
      c • ((fun _ => (1 : ℚ)) : Fin (3 * 3) → ℚ) := by
    funext k
    simp [windowVec, constImg, Pi.smul_apply, smul_eq_mul]
  rw [hw, Matrix.mulVec_smul]
  congr 1
  rw [← design_mulVec_single, Matrix.mulVec_mulVec, fitOperator_mul_design,
    Matrix.one_mulVec]

/-- Claim C5: with order 2, window 3, downsample 2, loading an 8×8 image of
constant intensity produces a feature grid whose every descriptor is the all-zero
vector. -/
theorem claim_C5 (c : ℚ) (fr fc : ℕ)
    (hr : fr < nr (load 2 (freshConfigured 2 3) (constImg 8 8 c)))
    (hc : fc < nc (load 2 (freshConfigured 2 3) (constImg 8 8 c))) :
    (load 2 (freshConfigured 2 3) (constImg 8 8 c)).des fr fc =
      List.replicate (get_num_dimensions (freshConfigured 2 3)) 0 := by
  show descriptorAt 2 3 2 (constImg 8 8 c) fr fc = List.replicate 5 0
  unfold descriptorAt
  rw [coeffs_const]
  rw [List.eq_replicate_iff]
  constructor
  · rfl
  · intro b hb
    simp only [List.mem_map, List.mem_range] at hb
    obtain ⟨i, hi, rfl⟩ := hb
    split
    · rw [Pi.smul_apply, Pi.single_eq_of_ne (by simp [Fin.ext_iff]), smul_eq_mul,
        mul_zero, zero_div]
    · rfl

/-- Witness for claim C5 at intensity 7 and feature location (0, 0). -/
theorem claim_C5_witness :
    0 < nr (load 2 (freshConfigured 2 3) (constImg 8 8 7)) ∧
    0 < nc (load 2 (freshConfigured 2 3) (constImg 8 8 7)) ∧
    (load 2 (freshConfigured 2 3) (constImg 8 8 7)).des 0 0 =
      List.replicate (get_num_dimensions (freshConfigured 2 3)) 0 :=
  ⟨by decide, by decide, claim_C5 7 0 0 (by decide) (by decide)⟩

/-- Counterexample to claim C10 as stated: loading a 5×5 image into the default
configuration (window size 13) yields an empty feature grid, not `size() > 0`. -/
theorem claim_C10_counterexample :
    ¬ 0 < size (load 1 init (constImg 5 5 0)) := by decide

/-- Claim C10 as amended: after `load(img)` the feature grid is non-empty exactly
when the image is at least `window_size` pixels in both dimensions; for a smaller
image `size() == 0`. -/
theorem claim_C10_amended (ds : ℕ) (s : PolyImage) (img : Image) :
    0 < size (load ds s img) ↔
      get_window_size s ≤ img.rows ∧ get_window_size s ≤ img.cols := by
  show 0 < gridRows s.window_size ds img.rows * gridRows s.window_size ds img.cols ↔ _
  rw [Nat.pos_iff_ne_zero, Nat.mul_ne_zero_iff, ← Nat.pos_iff_ne_zero,
    ← Nat.pos_iff_ne_zero, gridRows_pos_iff, gridRows_pos_iff]
  exact Iff.rfl

end DlibPoly
